import Mathlib

/-!
Verification of the cc-wrapped statistics pipeline.

This file gives a shallow embedding, in Lean 4, of the data model and the
aggregation functions of the cc-wrapped CLI (TypeScript sources: the stats
calculator with its mergeData helper, the local collector, and the legacy
variants kept in the repository), and proves or refutes the frozen claims
about them.

Modelling conventions, used throughout:
- JavaScript numbers holding token or message counts are modelled as Nat
  (the inputs are counts; division never occurs unguarded, so no NaN state
  is representable).  Counts that the code compares against 0 by a strict
  greater-than (most-active-day counts) are modelled as Int so that the
  behaviour on zero and negative counts stays visible.
- A JavaScript Map is modelled as an association list in insertion order:
  Map.set on a present key replaces the value in place, on an absent key it
  appends at the end; Map.entries iterates in insertion order.  A JavaScript
  Set is modelled as a duplicate-free list in insertion order.
- Date keys are the canonical "YYYY-MM-DD" strings the pipeline produces;
  string comparison is JavaScript code-unit lexicographic order, modelled on
  the underlying character lists.  Parsing such a key with new Date gives
  midnight UTC, so the millisecond difference of two parsed keys divided by
  86400000 is exactly the difference of their civil day numbers; diffDays is
  modelled accordingly (None standing for the NaN produced by an unparsable
  key, which compares unequal to 1).
- Wall-clock reads (Date.now, new Date()) are passed in as parameters.
-/

/-! ## String order and helpers (JavaScript code-unit order) -/

/-- Lexicographic strict order on character lists, by code point, as the
JavaScript less-than on strings compares code units. -/
def lexLtChars : List Char → List Char → Bool
  | [], [] => false
  | [], _ :: _ => true
  | _ :: _, [] => false
  | a :: as, b :: bs =>
    if a.toNat < b.toNat then true
    else if b.toNat < a.toNat then false
    else lexLtChars as bs

/-- JavaScript string strict less-than. -/
def strLt (a b : String) : Bool := lexLtChars a.data b.data

/-- Non-strict companion of strLt, used as the sorting comparator. -/
def strLe (a b : String) : Bool := !(strLt b a)

/-- The characters of one list are an initial segment of the other. -/
def startsWithChars : List Char → List Char → Bool
  | _, [] => true
  | [], _ :: _ => false
  | a :: as, b :: bs => a == b && startsWithChars as bs

/-- Embedding of String.prototype.startsWith. -/
def strStartsWith (s pre : String) : Bool := startsWithChars s.data pre.data

theorem lexLtChars_asymm : ∀ {a b : List Char}, lexLtChars a b = true → lexLtChars b a = false := by
  intro a
  induction a with
  | nil => intro b h; cases b <;> simp_all [lexLtChars]
  | cons x xs ih =>
    intro b h
    cases b with
    | nil => simp [lexLtChars] at h
    | cons y ys =>
      simp only [lexLtChars] at h ⊢
      by_cases hxy : x.toNat < y.toNat
      · have hyx : ¬ y.toNat < x.toNat := by omega
        simp [hxy, hyx]
      · by_cases hyx : y.toNat < x.toNat
        · simp [hxy, hyx] at h
        · simp only [hxy, hyx, if_false] at h ⊢
          exact ih h

theorem strLt_le {a b : String} (h : strLt a b = true) : strLe a b = true := by
  unfold strLe strLt at *
  simp [lexLtChars_asymm h]

/-! ## Calendar dates

A CalDate stands for one calendar date, the parsed form of a canonical
"YYYY-MM-DD" key.  daysFromCivil is the standard civil-from-days algorithm
for the proleptic Gregorian calendar, which is the arithmetic behind
JavaScript Date for UTC-parsed dates. -/

structure CalDate where
  year : Nat
  month : Nat
  day : Nat
  deriving DecidableEq, Repr

/-- Days since 1970-01-01 of a civil date (proleptic Gregorian), as in the
millisecond clock of a JavaScript Date divided by 86400000. -/
def daysFromCivil (y m d : Int) : Int :=
  let y2 : Int := if m ≤ 2 then y - 1 else y
  let era : Int := Int.fdiv y2 400
  let yoe : Int := y2 - era * 400
  let mp : Int := Int.fmod (m + 9) 12
  let doy : Int := Int.fdiv (153 * mp + 2) 5 + d - 1
  let doe : Int := yoe * 365 + Int.fdiv yoe 4 - Int.fdiv yoe 100 + doy
  era * 146097 + doe - 719468

/-- Day number of a calendar date (days since the Unix epoch). -/
def CalDate.dayNumber (d : CalDate) : Int :=
  daysFromCivil (d.year : Int) (d.month : Int) (d.day : Int)

/-- Inverse of daysFromCivil: the civil date of a day number. -/
def civilFromDays (z0 : Int) : CalDate :=
  let z : Int := z0 + 719468
  let era : Int := Int.fdiv z 146097
  let doe : Int := z - era * 146097
  let yoe : Int := Int.fdiv (doe - Int.fdiv doe 1460 + Int.fdiv doe 36524 - Int.fdiv doe 146096) 365
  let y : Int := yoe + era * 400
  let doy : Int := doe - (365 * yoe + Int.fdiv yoe 4 - Int.fdiv yoe 100)
  let mp : Int := Int.fdiv (5 * doy + 2) 153
  let d : Int := doy - Int.fdiv (153 * mp + 2) 5 + 1
  let m : Int := if mp < 10 then mp + 3 else mp - 9
  let y2 : Int := if m ≤ 2 then y + 1 else y
  ⟨y2.toNat, m.toNat, d.toNat⟩

/-- Two-digit zero padding, as String(n).padStart(2, "0") for month and day. -/
def pad2 (n : Nat) : String := if n < 10 then "0" ++ toString n else toString n

/-- Embedding of formatDateKey: the canonical "YYYY-MM-DD" key of a date. -/
def formatDateKey (d : CalDate) : String :=
  toString d.year ++ "-" ++ pad2 d.month ++ "-" ++ pad2 d.day

/-- Digits of a character list read as a decimal number; none when any
character is not a digit or the list is empty. -/
def digitsToNat : List Char → Option Nat → Option Nat
  | [], acc => acc
  | c :: cs, acc =>
    if c.isDigit then
      digitsToNat cs (some ((acc.getD 0) * 10 + (c.toNat - '0'.toNat)))
    else none

/-- Split a character list at a separator character, as String.split. -/
def splitOnChar (sep : Char) : List Char → List (List Char) → List Char → List (List Char)
  | [], groups, cur => (groups ++ [cur.reverse])
  | c :: cs, groups, cur =>
    if c == sep then splitOnChar sep cs (groups ++ [cur.reverse]) []
    else splitOnChar sep cs groups (c :: cur)

/-- Parse a "YYYY-MM-DD" key into a calendar date; none models the NaN date
that new Date yields on a key that is not in that shape. -/
def parseDateKey (s : String) : Option CalDate :=
  match splitOnChar '-' s.data [] [] with
  | [ys, ms, ds] =>
    match digitsToNat ys none, digitsToNat ms none, digitsToNat ds none with
    | some y, some m, some d => some ⟨y, m, d⟩
    | _, _, _ => none
  | _ => none

/-- Day difference of two date keys: Math.round of the millisecond gap over
86400000, which is exact for UTC-parsed keys; none models the NaN produced
when either key does not parse. -/
def diffDays (prev curr : String) : Option Int :=
  match parseDateKey prev, parseDateKey curr with
  | some a, some b => some (b.dayNumber - a.dayNumber)
  | _, _ => none

example : parseDateKey "2024-03-10" = some ⟨2024, 3, 10⟩ := by decide
example : diffDays "2024-03-10" "2024-03-11" = some 1 := by decide
example : diffDays "2024-02-28" "2024-03-01" = some 2 := by decide
example : formatDateKey ⟨2024, 3, 9⟩ = "2024-03-09" := by decide
example : civilFromDays (CalDate.dayNumber ⟨2024, 3, 1⟩ - 1) = ⟨2024, 2, 29⟩ := by decide

/-! ## Data model (types.ts) -/

/-- Per-model cumulative usage record of the stats cache (ModelUsage in
types.ts).  Token fields are counts; costUSD is kept as a rational.  The
merge code defends optional numeric fields with a zero default, so the
fields are modelled already defaulted. -/
structure ModelUsage where
  inputTokens : Nat
  outputTokens : Nat
  cacheReadInputTokens : Nat
  cacheCreationInputTokens : Nat
  webSearchRequests : Nat
  costUSD : ℚ
  contextWindow : Nat
  deriving DecidableEq, Repr

/-- One per-day activity record of the stats cache (DailyActivity). -/
structure DayActivity where
  date : String
  messageCount : Nat
  sessionCount : Nat
  toolCallCount : Nat
  deriving DecidableEq, Repr

/-- The value stored per date in the merged daily-activity map. -/
structure DayCounts where
  messageCount : Nat
  sessionCount : Nat
  toolCallCount : Nat
  deriving DecidableEq, Repr

/-- Componentwise sum of two daily count records, the additive merge step. -/
def DayCounts.add (a b : DayCounts) : DayCounts :=
  ⟨a.messageCount + b.messageCount, a.sessionCount + b.sessionCount,
    a.toolCallCount + b.toolCallCount⟩

instance : Add DayCounts := ⟨DayCounts.add⟩

instance : Zero DayCounts := ⟨⟨0, 0, 0⟩⟩

/-- Longest-session record of the stats cache (LongestSession). -/
structure LongestSession where
  sessionId : String
  duration : Nat
  messageCount : Nat
  timestamp : String
  deriving DecidableEq, Repr

/-- One date of per-model token counts (DailyModelTokens). -/
structure DailyModelTokens where
  date : String
  tokensByModel : List (String × Nat)
  deriving DecidableEq, Repr

/-- The stats-cache.json document (ClaudeCodeStats in types.ts).  Records
keyed by strings are association lists in object-key order. -/
structure ClaudeCodeStats where
  version : Nat
  lastComputedDate : String
  dailyActivity : List DayActivity
  dailyModelTokens : List DailyModelTokens
  modelUsage : List (String × ModelUsage)
  totalSessions : Nat
  totalMessages : Nat
  longestSession : LongestSession
  firstSessionDate : String
  hourCounts : List (String × Nat)
  deriving DecidableEq, Repr

/-- One prompt-history record of history.jsonl (HistoryEntry).  The
pastedContents object carries no data the pipeline reads, so it is not
modelled.  timestamp is epoch milliseconds. -/
structure HistoryEntry where
  display : String
  timestamp : Int
  project : String
  sessionId : String
  deriving DecidableEq, Repr

/-- The local dataset handed to mergeData (CollectedData in stats.ts). -/
structure CollectedData where
  statsCache : Option ClaudeCodeStats
  history : List HistoryEntry
  projects : List String
  deriving DecidableEq, Repr

/-- One remote dataset (RemoteData in remote-collector.ts). -/
structure RemoteData where
  host : String
  statsCache : Option ClaudeCodeStats
  history : List HistoryEntry
  projects : List String
  oldestSessionTimestamp : Option String
  deriving DecidableEq, Repr

/-! ## JavaScript Map and Set on association lists -/

/-- Map.get: the value at a key, scanning in insertion order. -/
def lookupA {V : Type} : List (String × V) → String → Option V
  | [], _ => none
  | (k0, v0) :: rest, k => if k0 == k then some v0 else lookupA rest k

/-- Map.set: replace the value in place when the key is present, append the
pair at the end when it is absent. -/
def setA {V : Type} : List (String × V) → String → V → List (String × V)
  | [], k, v => [(k, v)]
  | (k0, v0) :: rest, k, v =>
    if k0 == k then (k, v) :: rest else (k0, v0) :: setA rest k v

/-- Map.get with a zero default. -/
def getDA {V : Type} [Zero V] (m : List (String × V)) (k : String) : V :=
  (lookupA m k).getD 0

/-- Map.has. -/
def hasKeyA {V : Type} (m : List (String × V)) (k : String) : Bool :=
  (lookupA m k).isSome

/-- Set.add: append when not yet present, keeping first-insertion order. -/
def addUnique (s : List String) (x : String) : List String :=
  if x ∈ s then s else s ++ [x]

/-- new Set(list) as a duplicate-free list in first-occurrence order. -/
def dedupKeepFirst (l : List String) : List String :=
  l.foldl addUnique []

theorem lookupA_setA {V : Type} (m : List (String × V)) (k x : String) (v : V) :
    lookupA (setA m k v) x = if x = k then some v else lookupA m x := by
  induction m with
  | nil =>
    by_cases hxk : x = k
    · subst hxk; simp [setA, lookupA]
    · have h1 : (k == x) = false := by simp; exact fun h => hxk h.symm
      simp [setA, lookupA, h1, hxk]
  | cons p rest ih =>
    obtain ⟨k0, v0⟩ := p
    by_cases hk0 : k0 = k
    · subst hk0
      by_cases hxk : x = k0
      · subst hxk; simp [setA, lookupA]
      · have h1 : (k0 == x) = false := by simp; exact fun h => hxk h.symm
        simp [setA, lookupA, h1, hxk]
    · have hbk : (k0 == k) = false := by simp [hk0]
      by_cases hx0 : k0 = x
      · subst hx0
        simp [setA, lookupA, hbk, hk0]
      · have hbx : (k0 == x) = false := by simp [hx0]
        simp [setA, lookupA, hbk, hbx, ih]

theorem getDA_setA {V : Type} [Zero V] (m : List (String × V)) (k x : String) (v : V) :
    getDA (setA m k v) x = if x = k then v else getDA m x := by
  unfold getDA
  rw [lookupA_setA]
  by_cases hxk : x = k <;> simp [hxk]

theorem hasKeyA_setA {V : Type} (m : List (String × V)) (k x : String) (v : V) :
    hasKeyA (setA m k v) x = (x == k || hasKeyA m x) := by
  unfold hasKeyA
  rw [lookupA_setA]
  by_cases hxk : x = k <;> simp [hxk]

/-- Membership in the result of setA comes from the new pair or from the
original list. -/
theorem mem_setA {V : Type} {m : List (String × V)} {k : String} {v : V} {p : String × V}
    (h : p ∈ setA m k v) : p = (k, v) ∨ p ∈ m := by
  induction m with
  | nil => simpa [setA] using h
  | cons q rest ih =>
    obtain ⟨k0, v0⟩ := q
    by_cases hk0 : k0 = k
    · subst hk0
      simp only [setA, beq_self_eq_true, if_true, List.mem_cons] at h
      rcases h with h | h
      · exact Or.inl h
      · exact Or.inr (List.mem_cons_of_mem _ h)
    · have hbk : (k0 == k) = false := by simp [hk0]
      simp only [setA, hbk, Bool.false_eq_true, if_false, List.mem_cons] at h
      rcases h with h | h
      · exact Or.inr (by simp [h])
      · rcases ih h with h2 | h2
        · exact Or.inl h2
        · exact Or.inr (List.mem_cons_of_mem _ h2)

/-! ## Merge engine (mergeData in stats.ts)

The merged daily-activity and model-usage maps of mergeData are built in two
phases: the local cache is copied in (Map.set, an overwrite), then every
remote cache is folded in additively. -/

/-- The map value for one daily-activity record. -/
def dayToCounts (day : DayActivity) : DayCounts :=
  ⟨day.messageCount, day.sessionCount, day.toolCallCount⟩

/-- Local phase of the daily merge: copy the record in (an overwrite). -/
def insertLocalDay (m : List (String × DayCounts)) (day : DayActivity) :
    List (String × DayCounts) :=
  setA m day.date (dayToCounts day)

/-- Remote phase of the daily merge: sum onto an existing entry, insert a
novel date as-is. -/
def addRemoteDay (m : List (String × DayCounts)) (day : DayActivity) :
    List (String × DayCounts) :=
  match lookupA m day.date with
  | some e => setA m day.date (e + dayToCounts day)
  | none => setA m day.date (dayToCounts day)

/-- The value stored per model id in the merged model-usage map (the merged
record before webSearchRequests and contextWindow are re-attached). -/
structure UsageAcc where
  inputTokens : Nat
  outputTokens : Nat
  cacheReadInputTokens : Nat
  cacheCreationInputTokens : Nat
  costUSD : ℚ
  deriving DecidableEq, Repr

/-- Local phase of the model-usage merge: copy the record in. -/
def insertLocalUsage (m : List (String × UsageAcc)) (p : String × ModelUsage) :
    List (String × UsageAcc) :=
  setA m p.1 ⟨p.2.inputTokens, p.2.outputTokens, p.2.cacheReadInputTokens,
    p.2.cacheCreationInputTokens, p.2.costUSD⟩

/-- Remote phase of the model-usage merge: numeric fields summed (the
zero-defaulting of optional fields is the identity here because the model
carries the fields already defaulted). -/
def addRemoteUsage (m : List (String × UsageAcc)) (p : String × ModelUsage) :
    List (String × UsageAcc) :=
  match lookupA m p.1 with
  | some e => setA m p.1 ⟨e.inputTokens + p.2.inputTokens,
      e.outputTokens + p.2.outputTokens,
      e.cacheReadInputTokens + p.2.cacheReadInputTokens,
      e.cacheCreationInputTokens + p.2.cacheCreationInputTokens,
      e.costUSD + p.2.costUSD⟩
  | none => setA m p.1 ⟨p.2.inputTokens, p.2.outputTokens,
      p.2.cacheReadInputTokens, p.2.cacheCreationInputTokens, p.2.costUSD⟩

/-- The merged daily-activity map of mergeData. -/
def mergeDailyMap (localCache : Option ClaudeCodeStats) (remotes : List RemoteData) :
    List (String × DayCounts) :=
  let m0 := match localCache with
    | some c => c.dailyActivity.foldl insertLocalDay []
    | none => []
  remotes.foldl (fun m r =>
    match r.statsCache with
    | some c => c.dailyActivity.foldl addRemoteDay m
    | none => m) m0

/-- The merged model-usage map of mergeData. -/
def mergeUsageMap (localCache : Option ClaudeCodeStats) (remotes : List RemoteData) :
    List (String × UsageAcc) :=
  let m0 := match localCache with
    | some c => c.modelUsage.foldl insertLocalUsage []
    | none => []
  remotes.foldl (fun m r =>
    match r.statsCache with
    | some c => c.modelUsage.foldl addRemoteUsage m
    | none => m) m0

/-- A null-or-string is falsy when it is null or the empty string. -/
def isFalsyStr : Option String → Bool
  | none => true
  | some s => s == ""

/-- One earliest-date update step: a falsy candidate is skipped (its guard
fails), otherwise it replaces a falsy current value or any later one. -/
def updateEarliest (e : Option String) (cand : String) : Option String :=
  if cand == "" then e
  else if isFalsyStr e then some cand
  else if strLt cand (e.getD "") then some cand else e

/-- The merged first-seen date of mergeData: local cache value first, then
per remote (only those with a stats cache, the loop continues early
otherwise) its cache date and its oldest-transcript timestamp. -/
def mergeEarliest (localCache : Option ClaudeCodeStats) (remotes : List RemoteData) :
    Option String :=
  let e0 := localCache.map (·.firstSessionDate)
  remotes.foldl (fun e r =>
    match r.statsCache with
    | some c =>
      let e1 := updateEarliest e c.firstSessionDate
      match r.oldestSessionTimestamp with
      | some t => updateEarliest e1 t
      | none => e1
    | none => e) e0

/-- Sum of totalSessions over the local cache and every remote cache. -/
def mergeTotalSessions (localCache : Option ClaudeCodeStats) (remotes : List RemoteData) : Nat :=
  remotes.foldl (fun a r =>
    match r.statsCache with
    | some c => a + c.totalSessions
    | none => a)
    (match localCache with | some c => c.totalSessions | none => 0)

/-- Sum of totalMessages over the local cache and every remote cache. -/
def mergeTotalMessages (localCache : Option ClaudeCodeStats) (remotes : List RemoteData) : Nat :=
  remotes.foldl (fun a r =>
    match r.statsCache with
    | some c => a + c.totalMessages
    | none => a)
    (match localCache with | some c => c.totalMessages | none => 0)

/-- The daily-activity record rebuilt from a map entry. -/
def countsToDay (x : String) (c : DayCounts) : DayActivity :=
  ⟨x, c.messageCount, c.sessionCount, c.toolCallCount⟩

/-- The synthetic merged stats cache built by mergeData when at least one
remote dataset is present.  todayKey and nowISO are the wall-clock reads
(toISOString date part, full toISOString). -/
def buildMergedCache (loc : CollectedData) (remotes : List RemoteData)
    (todayKey nowISO : String) : ClaudeCodeStats :=
  ⟨1,
    todayKey,
    (mergeDailyMap loc.statsCache remotes).map (fun p => countsToDay p.1 p.2),
    [],
    (mergeUsageMap loc.statsCache remotes).map
      (fun p => (p.1, ⟨p.2.inputTokens, p.2.outputTokens, p.2.cacheReadInputTokens,
        p.2.cacheCreationInputTokens, 0, p.2.costUSD, 0⟩)),
    mergeTotalSessions loc.statsCache remotes,
    mergeTotalMessages loc.statsCache remotes,
    (match loc.statsCache with
      | some c => c.longestSession
      | none => ⟨"", 0, 0, ""⟩),
    (match mergeEarliest loc.statsCache remotes with
      | some s => if s == "" then nowISO else s
      | none => nowISO),
    []⟩

/-- Embedding of mergeData: history entries concatenated local-then-remotes,
project names unioned keeping first occurrence, and the stats cache left as
the local one when no remote dataset is present, else rebuilt from scratch
as the synthetic merged cache. -/
def mergeData (loc : CollectedData) (remotes : List RemoteData)
    (todayKey nowISO : String) : CollectedData :=
  let allHistory := remotes.foldl (fun acc r => acc ++ r.history) loc.history
  let allProjects := remotes.foldl (fun s r => r.projects.foldl addUnique s)
    (dedupKeepFirst loc.projects)
  if remotes.isEmpty then
    ⟨loc.statsCache, allHistory, allProjects⟩
  else
    ⟨some (buildMergedCache loc remotes todayKey nowISO), allHistory, allProjects⟩

/-! ## Stats calculator (calculateStats in stats.ts) -/

/-- Math.round((count / total) * 100) with the guard of the source: 0 when
the denominator is 0, else round-half-up of 100 count / total, which is
floor((200 count + total) / (2 total)). -/
def jsRoundPct (count total : Nat) : Nat :=
  if 0 < total then (200 * count + total) / (2 * total) else 0

/-- Stable descending insertion by count, the effect of the JavaScript
sort((a, b) => b[1] - a[1]) on the entries array. -/
def insertByCountDesc (x : String × Nat) : List (String × Nat) → List (String × Nat)
  | [] => [x]
  | y :: ys => if y.2 ≤ x.2 then x :: y :: ys else y :: insertByCountDesc x ys

/-- Sort entries by count descending (stable). -/
def sortByCountDesc (l : List (String × Nat)) : List (String × Nat) :=
  l.foldr insertByCountDesc []

/-- One ranked model of the output (ModelStats; the display name and the
constant provider id are presentational and carry no data of their own). -/
structure ModelStats where
  id : String
  count : Nat
  percentage : Nat
  deriving DecidableEq, Repr

/-- The per-model count metric: output tokens (zero-defaulted). -/
def modelCounts (modelUsage : List (String × ModelUsage)) : List (String × Nat) :=
  modelUsage.map (fun p => (p.1, p.2.outputTokens))

/-- Sum of all model counts, the percentage denominator. -/
def totalModelCount (modelUsage : List (String × ModelUsage)) : Nat :=
  ((modelCounts modelUsage).map (·.2)).foldl (· + ·) 0

/-- Embedding of the top-models computation: rank by output-token count
descending, take the top 3, attach the guarded rounded percentage. -/
def topModels (modelUsage : List (String × ModelUsage)) : List ModelStats :=
  ((sortByCountDesc (modelCounts modelUsage)).take 3).map
    (fun p => ⟨p.1, p.2, jsRoundPct p.2 (totalModelCount modelUsage)⟩)

/-- Last path segment of a project field, with the full field as fallback
when the last segment is empty (split("/").pop() || entry.project). -/
def projectNameOf (p : String) : String :=
  match (splitOnChar '/' p.data [] []).getLast? with
  | some seg => if seg.isEmpty then p else ⟨seg⟩
  | none => p

/-- One history entry of the project-count build: Map.set of get-or-zero
plus one at the entry's project name. -/
def bumpProject (m : List (String × Nat)) (e : HistoryEntry) : List (String × Nat) :=
  setA m (projectNameOf e.project) (getDA m (projectNameOf e.project) + 1)

/-- The per-project prompt-count map, built by folding the merged history
in order. -/
def projectCounts (history : List HistoryEntry) : List (String × Nat) :=
  history.foldl bumpProject []

/-- One ranked project of the output (ProjectStats). -/
structure ProjectStats where
  name : String
  promptCount : Nat
  percentage : Nat
  deriving DecidableEq, Repr

/-- Embedding of the top-projects computation: rank by prompt count
descending, take the top 4, attach the guarded rounded percentage over the
total number of history entries. -/
def topProjects (history : List HistoryEntry) : List ProjectStats :=
  ((sortByCountDesc (projectCounts history)).take 4).map
    (fun p => ⟨p.1, p.2, jsRoundPct p.2 history.length⟩)

/-- Sum of messageCount over the cache days of the requested year
(date.startsWith(String(year))). -/
def yearMsgSum (c : ClaudeCodeStats) (year : Nat) : Nat :=
  (c.dailyActivity.filter (fun d => strStartsWith d.date (toString year))).foldl
    (fun a d => a + d.messageCount) 0

/-- Sum of sessionCount over the cache days of the requested year. -/
def yearSessSum (c : ClaudeCodeStats) (year : Nat) : Nat :=
  (c.dailyActivity.filter (fun d => strStartsWith d.date (toString year))).foldl
    (fun a d => a + d.sessionCount) 0

/-- Embedding of the totals computation of calculateStats: sessions and
messages summed from the year-filtered cache days, with the history fallback
heuristic (messages = 20 per entry, sessions = distinct session ids) when
the summed message total is 0 and history is non-empty.  Returns
(totalSessions, totalMessages). -/
def computeTotals (mergedStats : Option ClaudeCodeStats) (history : List HistoryEntry)
    (year : Nat) : Nat × Nat :=
  let totalMessages := match mergedStats with
    | some c => yearMsgSum c year
    | none => 0
  let totalSessions := match mergedStats with
    | some c => yearSessSum c year
    | none => 0
  if totalMessages == 0 && history.length > 0 then
    ((dedupKeepFirst (history.map (·.sessionId))).length, history.length * 20)
  else
    (totalSessions, totalMessages)

/-- Accumulator of the token-totals loop of calculateStats. -/
structure TokenAcc where
  totalInputTokens : Nat
  totalOutputTokens : Nat
  totalCacheReadTokens : Nat
  totalCacheWriteTokens : Nat
  totalCost : ℚ
  deriving DecidableEq, Repr

/-- One step of the token-totals loop (the zero-defaulting of optional
fields is the identity here because the model carries them defaulted). -/
def tokenAccStep (a : TokenAcc) (p : String × ModelUsage) : TokenAcc :=
  ⟨a.totalInputTokens + p.2.inputTokens,
    a.totalOutputTokens + p.2.outputTokens,
    a.totalCacheReadTokens + p.2.cacheReadInputTokens,
    a.totalCacheWriteTokens + p.2.cacheCreationInputTokens,
    a.totalCost + p.2.costUSD⟩

/-- The four token category totals and the cost, summed across every
per-model usage entry of the merged cache (not year-scoped). -/
def computeTokenAcc (mergedStats : Option ClaudeCodeStats) : TokenAcc :=
  match mergedStats with
  | some c => c.modelUsage.foldl tokenAccStep ⟨0, 0, 0, 0, 0⟩
  | none => ⟨0, 0, 0, 0, 0⟩

/-- totalTokens as the current stats calculator derives it (stats.ts):
the sum of the four category counters. -/
def totalTokensOf (a : TokenAcc) : Nat :=
  a.totalInputTokens + a.totalOutputTokens + a.totalCacheReadTokens + a.totalCacheWriteTokens

/-- totalTokens as the legacy stats calculator variant kept in the
repository derives it: input plus output tokens only. -/
def legacyTotalTokensOf (a : TokenAcc) : Nat :=
  a.totalInputTokens + a.totalOutputTokens

/-! ## Streaks (calculateStreaks in stats.ts) -/

/-- Ascending stable insertion in JavaScript string order. -/
def insertKeyAsc (x : String) : List String → List String
  | [] => [x]
  | y :: ys => if strLe x y then x :: y :: ys else y :: insertKeyAsc x ys

/-- Array.prototype.sort with the default comparator: the keys in ascending
code-unit order. -/
def sortKeys (l : List String) : List String := l.foldr insertKeyAsc []

/-- The loop state of calculateStreaks. -/
structure StreakState where
  maxStreak : Nat
  tempStreak : Nat
  tempStreakStart : Nat
  maxStreakStart : Nat
  maxStreakEnd : Nat
  deriving DecidableEq, Repr

/-- One iteration of the streak loop at index i with the day gap between
dates i-1 and i: a gap of exactly 1 extends the running streak (recording a
new maximum run when it grows past the maximum), anything else - including
the NaN of an unparsable key - resets the running streak to length 1. -/
def streakStep (st : StreakState) (p : Nat × Option Int) : StreakState :=
  if p.2 == some 1 then
    let t := st.tempStreak + 1
    if st.maxStreak < t then ⟨t, t, st.tempStreakStart, st.tempStreakStart, p.1⟩
    else ⟨st.maxStreak, t, st.tempStreakStart, st.maxStreakStart, st.maxStreakEnd⟩
  else
    ⟨st.maxStreak, 1, p.1, st.maxStreakStart, st.maxStreakEnd⟩

/-- Day gaps between adjacent sorted dates. -/
def adjacentDiffs (dates : List String) : List (Option Int) :=
  (dates.zip (dates.drop 1)).map (fun p => diffDays p.1 p.2)

/-- The streak loop over indices 1 .. length-1. -/
def streakScan (dates : List String) : StreakState :=
  (adjacentDiffs dates).enum.foldl (fun st p => streakStep st (p.1 + 1, p.2)) ⟨1, 1, 0, 0, 0⟩

/-- The backward walk of countStreakBackwards: keep stepping one day back
while the formatted key is present.  The walk visits strictly decreasing
dates, so at most as many steps succeed as the map has entries; the fuel
argument makes that termination bound explicit and is never exhausted
before the first absent day. -/
def countBackAux (dailyActivity : List (String × Int)) : Nat → Int → Nat → Nat
  | 0, _, streak => streak
  | fuel + 1, dayNum, streak =>
    let d := dayNum - 1
    if hasKeyA dailyActivity (formatDateKey (civilFromDays d)) then
      countBackAux dailyActivity fuel d (streak + 1)
    else streak

/-- Embedding of countStreakBackwards. -/
def countStreakBackwards (dailyActivity : List (String × Int)) (start : CalDate) : Nat :=
  countBackAux dailyActivity dailyActivity.length start.dayNumber 1

/-- The result record of calculateStreaks; maxStreakDays is the Set in its
insertion order. -/
structure StreakResult where
  maxStreak : Nat
  currentStreak : Nat
  maxStreakDays : List String
  deriving DecidableEq, Repr

/-- Embedding of calculateStreaks.  The wall-clock read (new Date()) is the
today parameter; yesterday is one day earlier. -/
def calculateStreaks (dailyActivity : List (String × Int)) (year : Nat)
    (today : CalDate) : StreakResult :=
  let activeDates :=
    sortKeys ((dailyActivity.map (·.1)).filter (fun k => strStartsWith k (toString year)))
  if activeDates.isEmpty then ⟨0, 0, []⟩
  else
    let st := streakScan activeDates
    let maxStreakDays :=
      (activeDates.drop st.maxStreakStart).take (st.maxStreakEnd + 1 - st.maxStreakStart)
    let todayKey := formatDateKey today
    let yesterday := civilFromDays (today.dayNumber - 1)
    let currentStreak :=
      if hasKeyA dailyActivity todayKey then
        countStreakBackwards dailyActivity today
      else if hasKeyA dailyActivity (formatDateKey yesterday) then
        countStreakBackwards dailyActivity yesterday
      else 0
    ⟨st.maxStreak, currentStreak, maxStreakDays⟩

/-! ## Most active day (findMostActiveDay in stats.ts) -/

/-- The month short names of the source. -/
def monthNames : List String :=
  ["Jan", "Feb", "Mar", "Apr", "May", "Jun", "Jul", "Aug", "Sep", "Oct", "Nov", "Dec"]

/-- The display string built from the winning date key ("Mar 9"). -/
def formatShortDate (key : String) : String :=
  match parseDateKey key with
  | some d => (monthNames.getD (d.month - 1) "undefined") ++ " " ++ toString d.day
  | none => "undefined NaN"

/-- The result record of findMostActiveDay. -/
structure MostActiveDay where
  date : String
  count : Int
  formattedDate : String
  deriving DecidableEq, Repr

/-- One entry of the findMostActiveDay scan: replace the running pair only
on a strictly greater count. -/
def mostActiveStep (acc q : String × Int) : String × Int :=
  if acc.2 < q.2 then q else acc

/-- Embedding of findMostActiveDay: a scan for a strictly greater count,
starting from the sentinel pair of the empty date and count 0; the sentinel
date surviving the scan yields null. -/
def findMostActiveDay (dailyActivity : List (String × Int)) : Option MostActiveDay :=
  if dailyActivity.isEmpty then none
  else
    let p := dailyActivity.foldl mostActiveStep ("", 0)
    if p.1 == "" then none
    else some ⟨p.1, p.2, formatShortDate p.1⟩

/-! ## Local collector (collector.ts, current version)

The filesystem is abstracted at the boundaries the code reads through: a
listability predicate (whether readdir on a candidate root succeeds) and a
path-indexed cache reader (read-and-parse combined, with none for a
missing or malformed file); transcript scanning takes the projects tree as
a list of project directories, each a list of session files, each a list
of parsed lines (none for a blank or invalid line). -/

/-- The characters of one list are a final segment of the other. -/
def strEndsWith (s suf : String) : Bool :=
  startsWithChars s.data.reverse suf.data.reverse

/-- Joining of two path segments, as node's join. -/
def joinPath (a b : String) : String := a ++ "/" ++ b

/-- The fixed preference-ordered candidate storage roots of the collector
(CLAUDE_DATA_PATHS): join(homedir(), ".claude") - the old default - then
join(homedir(), ".config", "claude") - the new default. -/
def claudeDataPaths (home : String) : List String :=
  [joinPath home ".claude", joinPath (joinPath home ".config") "claude"]

/-- Embedding of getValidClaudePaths: each candidate root is tried in
order; a root whose directory listing fails is silently skipped. -/
def getValidClaudePaths (home : String) (listable : String → Bool) : List String :=
  (claudeDataPaths home).filter listable

/-- One model entry of a further cache merged into the accumulated usage
record inside collectStatsCache: the four token fields and the cost are
summed onto an existing entry with zero defaults (the webSearchRequests
and contextWindow fields are not touched by this merge and keep the
accumulated record's values), and a novel model id is copied in. -/
def addCacheUsage (m : List (String × ModelUsage)) (p : String × ModelUsage) :
    List (String × ModelUsage) :=
  match lookupA m p.1 with
  | some e => setA m p.1 ⟨e.inputTokens + p.2.inputTokens,
      e.outputTokens + p.2.outputTokens,
      e.cacheReadInputTokens + p.2.cacheReadInputTokens,
      e.cacheCreationInputTokens + p.2.cacheCreationInputTokens,
      e.webSearchRequests, e.costUSD + p.2.costUSD, e.contextWindow⟩
  | none => setA m p.1 p.2

/-- The pairwise additive cache merge inside collectStatsCache: daily
activity merged per date (the accumulated cache's records copied into a
fresh map, the further cache's records summed onto it), model usage summed
per model id, totals summed, and the earlier first-session date kept; the
remaining fields stay those of the accumulated cache, which the code
mutates in place. -/
def mergeCaches (a b : ClaudeCodeStats) : ClaudeCodeStats :=
  ⟨a.version, a.lastComputedDate,
    (b.dailyActivity.foldl addRemoteDay (a.dailyActivity.foldl insertLocalDay [])).map
      (fun p => countsToDay p.1 p.2),
    a.dailyModelTokens,
    b.modelUsage.foldl addCacheUsage a.modelUsage,
    a.totalSessions + b.totalSessions,
    a.totalMessages + b.totalMessages,
    a.longestSession,
    (if strLt b.firstSessionDate a.firstSessionDate then b.firstSessionDate
      else a.firstSessionDate),
    a.hourCounts⟩

/-- Embedding of collectStatsCache (current collector): every discoverable
valid root is read in preference order; the first successfully parsed
cache file seeds the result and every further one is additively merged
onto it; a root whose cache file is missing or malformed is skipped, and
no valid cache at all yields null. -/
def collectStatsCache (home : String) (listable : String → Bool)
    (readCache : String → Option ClaudeCodeStats) : Option ClaudeCodeStats :=
  (getValidClaudePaths home listable).foldl
    (fun merged basePath =>
      match readCache (joinPath basePath "stats-cache.json") with
      | some content =>
        match merged with
        | none => some content
        | some m => some (mergeCaches m content)
      | none => merged)
    none

/-- The token-usage object of one transcript line
(message.message.usage). -/
structure UsageRaw where
  input_tokens : Nat
  output_tokens : Nat
  cache_read_input_tokens : Option Nat
  cache_creation_input_tokens : Option Nat
  deriving DecidableEq, Repr

/-- One parsed transcript line (also the shape of a collected
SessionMessage): optional fields are absent when the JSON lacks them; a
missing type is any value other than "assistant". -/
structure SessionLine where
  type : String
  sessionId : String
  timestamp : Option String
  model : Option String
  usage : Option UsageRaw
  deriving DecidableEq, Repr

/-- One per-session transcript file: its name and its parsed lines, in file
order (none stands for a blank or invalid JSON line). -/
abbrev SessionFile := String × List (Option SessionLine)

/-- One project directory of the projects tree. -/
abbrev ProjectDir := String × List SessionFile

/-- The ~/.claude/projects tree. -/
abbrev ProjectsTree := List ProjectDir

/-- The file filter of collectSessionMessages: .jsonl files that are not
sub-agent transcripts. -/
def sessionFileKeep (name : String) : Bool :=
  strEndsWith name ".jsonl" && !(strStartsWith name "agent-")

/-- The file filter of findOldestLocalSessionTimestamp: .jsonl files (with
no sub-agent exclusion). -/
def oldestFileKeep (name : String) : Bool :=
  strEndsWith name ".jsonl"

/-- The leading four-digit year of an ISO timestamp, the getFullYear of its
parsed Date; none models the NaN year of an unparsable value. -/
def isoYearOf : Option String → Option Nat
  | some s =>
    let ys := s.data.take 4
    if ys.length == 4 && ys.all (·.isDigit) then digitsToNat ys none else none
  | none => none

/-- One line of collectSessionMessages: keep assistant messages that carry
usage data, dropping those outside the requested year when one is given (a
NaN year never equals the requested year, so an unparsable timestamp is
dropped too). -/
def keepSessionLine (year : Option Nat) (msg : SessionLine) : Bool :=
  msg.type == "assistant" && msg.usage.isSome &&
    (match year with
      | some y => isoYearOf msg.timestamp == some y
      | none => true)

/-- One line step of collectSessionMessages. -/
def messageLineFold (year : Option Nat) (acc : List SessionLine)
    (line : Option SessionLine) : List SessionLine :=
  match line with
  | some msg => if keepSessionLine year msg then acc ++ [msg] else acc
  | none => acc

/-- One file of collectSessionMessages: every line in order. -/
def messageFileFold (year : Option Nat) (acc : List SessionLine) (f : SessionFile) :
    List SessionLine :=
  f.2.foldl (messageLineFold year) acc

/-- One project directory of collectSessionMessages: its .jsonl files
excluding sub-agent transcripts. -/
def messageDirFold (year : Option Nat) (acc : List SessionLine) (dir : ProjectDir) :
    List SessionLine :=
  (dir.2.filter (fun f => sessionFileKeep f.1)).foldl (messageFileFold year) acc

/-- Embedding of collectSessionMessages: walk the project directories, then
the .jsonl session files of each excluding sub-agent files, then every
line, collecting the kept messages in walk order. -/
def collectSessionMessages (tree : ProjectsTree) (year : Option Nat) : List SessionLine :=
  tree.foldl (messageDirFold year) []

/-- One candidate of the oldest-timestamp scan: a present, non-empty string
timestamp replaces a null current value or any later one. -/
def oldestStep (o : Option String) (line : Option SessionLine) : Option String :=
  match line with
  | some msg =>
    match msg.timestamp with
    | some t =>
      if t == "" then o
      else
        match o with
        | none => some t
        | some cur => if strLt t cur then some t else o
    | none => o
  | none => o

/-- One file of the oldest-timestamp scan: only its first 10 lines. -/
def oldestFileFold (o : Option String) (f : SessionFile) : Option String :=
  (f.2.take 10).foldl oldestStep o

/-- One project directory of the oldest-timestamp scan: its .jsonl files
(sub-agent files included). -/
def oldestDirFold (o : Option String) (dir : ProjectDir) : Option String :=
  (dir.2.filter (fun f => oldestFileKeep f.1)).foldl oldestFileFold o

/-- Embedding of findOldestLocalSessionTimestamp: walk the project
directories, then every .jsonl file of each (sub-agent files included),
then only the first 10 lines of each file, tracking the least timestamp
seen. -/
def findOldestLocalSessionTimestamp (tree : ProjectsTree) : Option String :=
  tree.foldl oldestDirFold none

/-- Drop the sub-agent transcript files from every project directory. -/
def removeAgentFiles (tree : ProjectsTree) : ProjectsTree :=
  tree.map (fun dir => (dir.1, dir.2.filter (fun f => !(strStartsWith f.1 "agent-"))))

/-- Truncate every session file to its first 10 lines. -/
def firstTenLines (tree : ProjectsTree) : ProjectsTree :=
  tree.map (fun dir => (dir.1, dir.2.map (fun f => (f.1, f.2.take 10))))

/-! ## Claim C1: top-model ranking example -/

/-- The model-usage input of the C1 example: output-token counts A 50,
B 30, C 20 (all other fields zero). -/
def c1ModelUsage : List (String × ModelUsage) :=
  [("A", ⟨0, 50, 0, 0, 0, 0, 0⟩), ("B", ⟨0, 30, 0, 0, 0, 0, 0⟩), ("C", ⟨0, 20, 0, 0, 0, 0, 0⟩)]

/-- C1 counterexample: on the input of the claim the computed percentages
are 50, 30 and 20 - the rounding rule the claim itself states, applied to
the denominator 100 - and not the 45, 27 and 18 the claim asserts. -/
theorem topModels_percentages_not_45_27_18 :
    (topModels c1ModelUsage).map (fun m => m.percentage) = [50, 30, 20] ∧
    ¬ (topModels c1ModelUsage).map (fun m => m.percentage) = [45, 27, 18] := by decide

/-- C1 (amended): for the model-usage input with output-token counts A 50,
B 30, C 20, topModels returns the three models in the order A, B, C with
counts 50, 30, 20 and percentages 50, 30 and 20 (each the rounded share of
the count in the sum 100 of all model counts). -/
theorem topModels_ranking_example :
    topModels c1ModelUsage = [⟨"A", 50, 50⟩, ⟨"B", 30, 30⟩, ⟨"C", 20, 20⟩] := by decide

/-! ## Claim C5: merge with no remote datasets -/

/-- C5: merging a local dataset with zero remote datasets leaves the stats
cache exactly the local one (so every cache total - daily activity, model
usage, totalSessions, totalMessages, firstSessionDate - is exactly the
local value), and the history is also unchanged. -/
theorem mergeData_no_remotes_is_noop :
    ∀ (loc : CollectedData) (todayKey nowISO : String),
      (mergeData loc [] todayKey nowISO).statsCache = loc.statsCache ∧
      (mergeData loc [] todayKey nowISO).history = loc.history := by
  intro loc tk ni
  exact ⟨rfl, rfl⟩

/-! ## Claim C8: totalTokens is the sum of the four category counters -/

theorem tokenAcc_foldl_fields (l : List (String × ModelUsage)) (a : TokenAcc) :
    (l.foldl tokenAccStep a).totalInputTokens
        = a.totalInputTokens + (l.map (fun p => p.2.inputTokens)).sum
      ∧ (l.foldl tokenAccStep a).totalOutputTokens
        = a.totalOutputTokens + (l.map (fun p => p.2.outputTokens)).sum
      ∧ (l.foldl tokenAccStep a).totalCacheReadTokens
        = a.totalCacheReadTokens + (l.map (fun p => p.2.cacheReadInputTokens)).sum
      ∧ (l.foldl tokenAccStep a).totalCacheWriteTokens
        = a.totalCacheWriteTokens + (l.map (fun p => p.2.cacheCreationInputTokens)).sum := by
  induction l generalizing a with
  | nil => simp
  | cons p rest ih =>
    simp only [List.foldl_cons, List.map_cons, List.sum_cons]
    obtain ⟨h1, h2, h3, h4⟩ := ih (tokenAccStep a p)
    rw [h1, h2, h3, h4]
    simp only [tokenAccStep]
    refine ⟨by omega, by omega, by omega, by omega⟩

theorem sum_map_add4 (l : List (String × ModelUsage)) :
    (l.map (fun p => p.2.inputTokens)).sum + (l.map (fun p => p.2.outputTokens)).sum +
      (l.map (fun p => p.2.cacheReadInputTokens)).sum +
      (l.map (fun p => p.2.cacheCreationInputTokens)).sum
    = (l.map (fun p => p.2.inputTokens + p.2.outputTokens +
        p.2.cacheReadInputTokens + p.2.cacheCreationInputTokens)).sum := by
  induction l with
  | nil => rfl
  | cons p rest ih =>
    simp only [List.map_cons, List.sum_cons]
    omega

/-- C8 (amended): in the current stats calculator, totalTokens is derived
as the sum of the four category counters, which are themselves the sums of
the per-model usage fields of the merged cache - it is never sourced
independently.  (The legacy calculator variant kept in the repository sums
only input and output tokens; see the counterexample.) -/
theorem totalTokens_is_sum_of_categories :
    (∀ ms : Option ClaudeCodeStats,
      totalTokensOf (computeTokenAcc ms) =
        (computeTokenAcc ms).totalInputTokens + (computeTokenAcc ms).totalOutputTokens +
        (computeTokenAcc ms).totalCacheReadTokens + (computeTokenAcc ms).totalCacheWriteTokens) ∧
    (∀ c : ClaudeCodeStats,
      totalTokensOf (computeTokenAcc (some c)) =
        (c.modelUsage.map (fun p => p.2.inputTokens + p.2.outputTokens +
          p.2.cacheReadInputTokens + p.2.cacheCreationInputTokens)).sum) := by
  constructor
  · intro ms; rfl
  · intro c
    obtain ⟨h1, h2, h3, h4⟩ := tokenAcc_foldl_fields c.modelUsage ⟨0, 0, 0, 0, 0⟩
    unfold totalTokensOf computeTokenAcc
    rw [h1, h2, h3, h4]
    simp only [Nat.zero_add]
    exact sum_map_add4 c.modelUsage

/-- A cache whose single model carries nonzero cache-read and cache-write
tokens. -/
def c8Cache : ClaudeCodeStats :=
  ⟨1, "2025-01-01", [], [], [("claude-3-5-sonnet-20241022", ⟨1, 2, 7, 9, 0, 0, 0⟩)],
    0, 0, ⟨"", 0, 0, ""⟩, "2025-01-01", []⟩

/-- C8 counterexample: the legacy stats calculator variant kept in the
repository computes totalTokens as input plus output only (3 here), not as
the sum of the four category counters (19 here), so a WrappedStats computed
by that variant violates the claim. -/
theorem legacy_totalTokens_not_sum_of_four :
    legacyTotalTokensOf (computeTokenAcc (some c8Cache)) = 3 ∧
    totalTokensOf (computeTokenAcc (some c8Cache)) = 19 ∧
    legacyTotalTokensOf (computeTokenAcc (some c8Cache)) ≠
      totalTokensOf (computeTokenAcc (some c8Cache)) := by decide

/-! ## Claim C7: the history fallback for totals -/

/-- C7: whenever the cache is absent or its year-filtered message sum is
zero (in particular whenever it contributes zero message and session
counts) and history is non-empty, the totals are the fallback heuristic:
totalSessions = number of distinct session ids, totalMessages = 20 times
the number of history entries. -/
theorem computeTotals_history_fallback
    (ms : Option ClaudeCodeStats) (history : List HistoryEntry) (year : Nat)
    (hmsg : ∀ c ∈ ms, yearMsgSum c year = 0)
    (hh : history ≠ []) :
    computeTotals ms history year =
      ((dedupKeepFirst (history.map (fun h => h.sessionId))).length,
        history.length * 20) := by
  have hlen : 0 < history.length := List.length_pos.mpr hh
  unfold computeTotals
  cases ms with
  | none => simp [hlen]
  | some c =>
    have h0 : yearMsgSum c year = 0 := hmsg c rfl
    simp [h0, hlen]

/-- Five history entries across three distinct session ids. -/
def c7History : List HistoryEntry :=
  [⟨"p1", 1, "/a/proj1", "s1"⟩, ⟨"p2", 2, "/a/proj1", "s1"⟩,
    ⟨"p3", 3, "/a/proj2", "s2"⟩, ⟨"p4", 4, "/b/proj3", "s3"⟩,
    ⟨"p5", 5, "/a/proj2", "s2"⟩]

/-- C7 witness: with no cache and the 5-entry, 3-session-id history, the
totals are 3 sessions and 100 messages. -/
theorem computeTotals_history_fallback_witness :
    computeTotals none c7History 2025 = (3, 100) := by
  have h := computeTotals_history_fallback none c7History 2025 (by simp) (by decide)
  rw [h]
  decide

/-! ## Claim C9: transcript-scanning file selection -/

theorem filter_sessionKeep_removeAgent (files : List SessionFile) :
    (files.filter (fun f => !(strStartsWith f.1 "agent-"))).filter
        (fun f => sessionFileKeep f.1)
      = files.filter (fun f => sessionFileKeep f.1) := by
  rw [List.filter_filter]
  apply List.filter_congr
  intro f _
  unfold sessionFileKeep
  cases strEndsWith f.1 ".jsonl" <;> cases strStartsWith f.1 "agent-" <;> rfl

theorem collectSessionMessages_removeAgent (tree : ProjectsTree) (year : Option Nat) :
    collectSessionMessages (removeAgentFiles tree) year = collectSessionMessages tree year := by
  unfold collectSessionMessages removeAgentFiles
  rw [List.foldl_map]
  have hstep : (fun (acc : List SessionLine) (dir : ProjectDir) =>
      messageDirFold year acc (dir.1, dir.2.filter (fun f => !(strStartsWith f.1 "agent-"))))
      = messageDirFold year := by
    funext acc dir
    unfold messageDirFold
    rw [filter_sessionKeep_removeAgent]
  rw [hstep]

theorem oldestFileFold_take_ten (o : Option String) (f : SessionFile) :
    oldestFileFold o (f.1, f.2.take 10) = oldestFileFold o f := by
  unfold oldestFileFold
  simp [List.take_take]

theorem findOldest_first_ten (tree : ProjectsTree) :
    findOldestLocalSessionTimestamp (firstTenLines tree)
      = findOldestLocalSessionTimestamp tree := by
  unfold findOldestLocalSessionTimestamp firstTenLines
  rw [List.foldl_map]
  have hstep : (fun (o : Option String) (dir : ProjectDir) =>
      oldestDirFold o (dir.1, dir.2.map (fun f => (f.1, f.2.take 10)))) = oldestDirFold := by
    funext o dir
    unfold oldestDirFold
    rw [List.filter_map, List.foldl_map]
    have h2 : (fun (o2 : Option String) (f : SessionFile) =>
        oldestFileFold o2 (f.1, f.2.take 10)) = oldestFileFold := by
      funext o2 f
      exact oldestFileFold_take_ten o2 f
    rw [h2]
    rfl
  rw [hstep]

/-- C9 (amended): session-message extraction never reads a sub-agent
(agent- prefixed) transcript file, and the oldest-timestamp scan inspects
only the first 10 lines of each session file; the oldest-timestamp scan
does not exclude sub-agent files (see the counterexample). -/
theorem transcript_scan_filters :
    (∀ (tree : ProjectsTree) (year : Option Nat),
      collectSessionMessages (removeAgentFiles tree) year = collectSessionMessages tree year) ∧
    (∀ tree : ProjectsTree,
      findOldestLocalSessionTimestamp (firstTenLines tree)
        = findOldestLocalSessionTimestamp tree) :=
  ⟨collectSessionMessages_removeAgent, findOldest_first_ten⟩

/-- A projects tree holding one sub-agent transcript file only. -/
def agentOnlyTree : ProjectsTree :=
  [("myproject", [("agent-abc.jsonl",
    [some ⟨"user", "s1", some "2020-01-01T00:00:00Z", none, none⟩])])]

/-- C9 counterexample: the oldest-timestamp scan does read sub-agent
transcript files - on a tree holding only an agent- file it finds that
file's timestamp, while on the same tree with sub-agent files removed it
finds nothing, so the two scans do not share the sub-agent exclusion the
claim asserts. -/
theorem findOldest_reads_agent_files :
    findOldestLocalSessionTimestamp agentOnlyTree = some "2020-01-01T00:00:00Z" ∧
    findOldestLocalSessionTimestamp (removeAgentFiles agentOnlyTree) = none := by
  constructor <;> decide

/-! ## Claim C10: most-active-day selection -/

theorem mostActive_foldl_cases :
    ∀ (l : List (String × Int)) (acc : String × Int),
    (l.foldl mostActiveStep acc = acc ∧ ∀ p ∈ l, p.2 ≤ acc.2) ∨
    (∃ i, i < l.length ∧ l.foldl mostActiveStep acc = l.getD i ("", 0) ∧
      acc.2 < (l.getD i ("", 0)).2 ∧
      (∀ j, j < i → (l.getD j ("", 0)).2 < (l.getD i ("", 0)).2) ∧
      (∀ p ∈ l, p.2 ≤ (l.getD i ("", 0)).2)) := by
  intro l
  induction l with
  | nil =>
    intro acc
    left
    exact ⟨rfl, by simp⟩
  | cons q rest ih =>
    intro acc
    by_cases hq : acc.2 < q.2
    · have hfold : (q :: rest).foldl mostActiveStep acc = rest.foldl mostActiveStep q := by
        simp [mostActiveStep, hq]
      rcases ih q with ⟨heq, hle⟩ | ⟨i, hi, heq, hgt, hbef, hall⟩
      · right
        refine ⟨0, by simp, ?_, ?_, ?_, ?_⟩
        · rw [hfold, heq]; simp
        · simpa using hq
        · intro j hj; omega
        · intro p hp
          rcases List.mem_cons.mp hp with h | h
          · subst h; simp
          · simpa using hle p h
      · right
        refine ⟨i + 1, by simpa using hi, ?_, ?_, ?_, ?_⟩
        · rw [hfold, heq]; simp
        · simpa using lt_trans hq hgt
        · intro j hj
          cases j with
          | zero => simpa using hgt
          | succ j2 =>
            have hj2 : j2 < i := by omega
            simpa using hbef j2 hj2
        · intro p hp
          rcases List.mem_cons.mp hp with h | h
          · subst h; simpa using le_of_lt hgt
          · simpa using hall p h
    · have hqle : q.2 ≤ acc.2 := le_of_not_lt hq
      have hfold : (q :: rest).foldl mostActiveStep acc = rest.foldl mostActiveStep acc := by
        simp [mostActiveStep, hq]
      rcases ih acc with ⟨heq, hle⟩ | ⟨i, hi, heq, hgt, hbef, hall⟩
      · left
        refine ⟨by rw [hfold, heq], ?_⟩
        intro p hp
        rcases List.mem_cons.mp hp with h | h
        · subst h; exact hqle
        · exact hle p h
      · right
        refine ⟨i + 1, by simpa using hi, ?_, ?_, ?_, ?_⟩
        · rw [hfold, heq]; simp
        · simpa using hgt
        · intro j hj
          cases j with
          | zero => simpa using lt_of_le_of_lt hqle hgt
          | succ j2 =>
            have hj2 : j2 < i := by omega
            simpa using hbef j2 hj2
        · intro p hp
          rcases List.mem_cons.mp hp with h | h
          · subst h; simpa using le_of_lt (lt_of_le_of_lt hqle hgt)
          · simpa using hall p h

/-- C10: on a map whose keys are date strings (all non-empty),
findMostActiveDay returns a result exactly when some entry has a strictly
positive count - an empty map, an all-zero map and an all-negative map all
yield null - and the returned entry carries the maximum count and is the
first entry in map-insertion order attaining it. -/
theorem findMostActiveDay_spec (l : List (String × Int)) (hkeys : ∀ p ∈ l, ¬ p.1 = "") :
    ((findMostActiveDay l).isSome ↔ ∃ p ∈ l, 0 < p.2) ∧
    (∀ r, findMostActiveDay l = some r →
      0 < r.count ∧ (∀ p ∈ l, p.2 ≤ r.count) ∧
      ∃ i, i < l.length ∧ l.getD i ("", 0) = (r.date, r.count) ∧
        ∀ j, j < i → (l.getD j ("", 0)).2 < r.count) := by
  cases l with
  | nil =>
    constructor
    · simp [findMostActiveDay]
    · intro r hr
      simp [findMostActiveDay] at hr
  | cons p0 rest =>
    rcases mostActive_foldl_cases (p0 :: rest) ("", 0) with ⟨heq, hle⟩ | ⟨i, hi, heq, hgt, hbef, hall⟩
    · have hres : findMostActiveDay (p0 :: rest) = none := by
        unfold findMostActiveDay
        simp [heq]
      constructor
      · rw [hres]
        simp only [Option.isSome_none, Bool.false_eq_true, false_iff]
        rintro ⟨p, hp, hpos⟩
        have := hle p hp
        simp at this
        omega
      · intro r hr
        rw [hres] at hr
        exact absurd hr (by simp)
    · have hmem : (p0 :: rest).getD i ("", 0) ∈ (p0 :: rest) := by
        rw [List.getD_eq_getElem _ _ hi]
        exact List.getElem_mem hi
      have hkey : ¬ ((p0 :: rest).getD i ("", 0)).1 = "" := hkeys _ hmem
      have hkeyb : (((p0 :: rest).getD i ("", 0)).1 == "") = false := by
        simpa using hkey
      have hpos : (0 : Int) < ((p0 :: rest).getD i ("", 0)).2 := by simpa using hgt
      have hres : findMostActiveDay (p0 :: rest) =
          some ⟨((p0 :: rest).getD i ("", 0)).1, ((p0 :: rest).getD i ("", 0)).2,
            formatShortDate ((p0 :: rest).getD i ("", 0)).1⟩ := by
        unfold findMostActiveDay
        simp only [List.isEmpty_cons, Bool.false_eq_true, if_false]
        rw [heq, hkeyb]
        simp
      constructor
      · rw [hres]
        simp only [Option.isSome_some, true_iff]
        exact ⟨_, hmem, hpos⟩
      · intro r hr
        rw [hres] at hr
        have hr2 := Option.some.inj hr
        subst hr2
        refine ⟨hpos, ?_, i, hi, ?_, ?_⟩
        · intro p hp
          exact hall p hp
        · rfl
        · intro j hj
          exact hbef j hj

/-- C10 witness: on a concrete two-entry map with tied counts the lookup
returns the first-inserted date with the maximal count, as the theorem
instantiates. -/
theorem findMostActiveDay_spec_witness :
    findMostActiveDay [("2024-01-03", 2), ("2024-01-05", 2)] =
      some ⟨"2024-01-03", 2, "Jan 3"⟩ ∧
    (0 : Int) < 2 ∧ (∀ p ∈ [(("2024-01-03" : String), (2 : Int)), ("2024-01-05", 2)], p.2 ≤ 2) := by
  refine ⟨by decide, ?_, ?_⟩
  · have h := (findMostActiveDay_spec [("2024-01-03", 2), ("2024-01-05", 2)] (by decide)).2
      ⟨"2024-01-03", 2, "Jan 3"⟩ (by decide)
    exact h.1
  · have h := (findMostActiveDay_spec [("2024-01-03", 2), ("2024-01-05", 2)] (by decide)).2
      ⟨"2024-01-03", 2, "Jan 3"⟩ (by decide)
    exact h.2.1

/-! ## Claim C3: percentage fields are bounded and guarded -/

theorem jsRoundPct_le_100 (c t : Nat) (h : c ≤ t) : jsRoundPct c t ≤ 100 := by
  unfold jsRoundPct
  by_cases ht : 0 < t
  · simp only [ht, if_true]
    have h2 : (200 * c + t) / (2 * t) < 101 := by
      rw [Nat.div_lt_iff_lt_mul (by omega)]
      omega
    omega
  · simp [ht]

theorem mem_insertByCountDesc {x y : String × Nat} :
    ∀ {l : List (String × Nat)}, x ∈ insertByCountDesc y l → x = y ∨ x ∈ l := by
  intro l
  induction l with
  | nil => intro h; simpa [insertByCountDesc] using h
  | cons z rest ih =>
    intro h
    unfold insertByCountDesc at h
    by_cases hz : z.2 ≤ y.2
    · simp only [hz, if_true, List.mem_cons] at h
      rcases h with h | h | h
      · exact Or.inl h
      · exact Or.inr (by simp [h])
      · exact Or.inr (List.mem_cons_of_mem _ h)
    · simp only [hz, if_false, List.mem_cons] at h
      rcases h with h | h
      · exact Or.inr (by simp [h])
      · rcases ih h with h2 | h2
        · exact Or.inl h2
        · exact Or.inr (List.mem_cons_of_mem _ h2)

theorem mem_sortByCountDesc {x : String × Nat} :
    ∀ {l : List (String × Nat)}, x ∈ sortByCountDesc l → x ∈ l := by
  intro l
  induction l with
  | nil => intro h; simp [sortByCountDesc] at h
  | cons y rest ih =>
    intro h
    unfold sortByCountDesc at h
    simp only [List.foldr_cons] at h
    rcases mem_insertByCountDesc h with h2 | h2
    · simp [h2]
    · exact List.mem_cons_of_mem _ (ih h2)

theorem le_foldl_add_init (l : List Nat) : ∀ a : Nat, a ≤ l.foldl (· + ·) a := by
  induction l with
  | nil => intro a; simp
  | cons x rest ih =>
    intro a
    have := ih (a + x)
    simp only [List.foldl_cons]
    omega

theorem mem_le_foldl_add {x : Nat} :
    ∀ {l : List Nat}, x ∈ l → ∀ a : Nat, x ≤ l.foldl (· + ·) a := by
  intro l
  induction l with
  | nil => intro h; exact absurd h (by simp)
  | cons y rest ih =>
    intro h a
    simp only [List.foldl_cons]
    rcases List.mem_cons.mp h with h2 | h2
    · subst h2
      have := le_foldl_add_init rest (a + x)
      omega
    · exact ih h2 (a + y)

theorem lookupA_mem {V : Type} {k : String} {v : V} :
    ∀ {m : List (String × V)}, lookupA m k = some v → (k, v) ∈ m := by
  intro m
  induction m with
  | nil => intro h; simp [lookupA] at h
  | cons p rest ih =>
    intro h
    obtain ⟨k0, v0⟩ := p
    unfold lookupA at h
    by_cases hk : k0 = k
    · subst hk
      simp only [beq_self_eq_true, if_true, Option.some.injEq] at h
      subst h
      exact List.mem_cons_self _ _
    · have hbk : (k0 == k) = false := by simp [hk]
      rw [hbk] at h
      simp only [Bool.false_eq_true, if_false] at h
      exact List.mem_cons_of_mem _ (ih h)

theorem projectCounts_bound :
    ∀ (l : List HistoryEntry) (m : List (String × Nat)) (n : Nat),
      (∀ q ∈ m, q.2 ≤ n) → ∀ q ∈ l.foldl bumpProject m, q.2 ≤ n + l.length := by
  intro l
  induction l with
  | nil => intro m n hm q hq; simpa using hm q hq
  | cons e rest ih =>
    intro m n hm q hq
    simp only [List.foldl_cons] at hq
    have hstep : ∀ q2 ∈ bumpProject m e, q2.2 ≤ n + 1 := by
      intro q2 hq2
      unfold bumpProject at hq2
      rcases mem_setA hq2 with h | h
      · subst h
        simp only
        unfold getDA
        cases hl : lookupA m (projectNameOf e.project) with
        | some v =>
          have := hm _ (lookupA_mem hl)
          simp only [Option.getD_some]
          omega
        | none => simp
      · have := hm q2 h
        omega
    have := ih (bumpProject m e) (n + 1) hstep q hq
    simp only [List.length_cons]
    omega

theorem mem_topModels {mu : List (String × ModelUsage)} {m : ModelStats}
    (hm : m ∈ topModels mu) :
    ∃ p ∈ modelCounts mu, m = ⟨p.1, p.2, jsRoundPct p.2 (totalModelCount mu)⟩ := by
  unfold topModels at hm
  rcases List.mem_map.mp hm with ⟨p, hp, hmp⟩
  have hp2 : p ∈ sortByCountDesc (modelCounts mu) := List.take_subset _ _ hp
  exact ⟨p, mem_sortByCountDesc hp2, hmp.symm⟩

theorem mem_topProjects {history : List HistoryEntry} {q : ProjectStats}
    (hq : q ∈ topProjects history) :
    ∃ p ∈ projectCounts history, q = ⟨p.1, p.2, jsRoundPct p.2 history.length⟩ := by
  unfold topProjects at hq
  rcases List.mem_map.mp hq with ⟨p, hp, hqp⟩
  have hp2 : p ∈ sortByCountDesc (projectCounts history) := List.take_subset _ _ hp
  exact ⟨p, mem_sortByCountDesc hp2, hqp.symm⟩

/-- C3 (amended): every top-model and top-project percentage lies in
[0, 100] (percentages are Nat here, so the lower bound is inherent and no
NaN is representable: the division is guarded), and a zero denominator
forces a zero percentage.  The converse of the zero case fails: a
percentage can be 0 with a nonzero denominator (see the counterexample). -/
theorem percentages_in_range :
    (∀ (mu : List (String × ModelUsage)), ∀ m ∈ topModels mu,
      m.percentage ≤ 100 ∧ (totalModelCount mu = 0 → m.percentage = 0)) ∧
    (∀ (history : List HistoryEntry), ∀ p ∈ topProjects history,
      p.percentage ≤ 100 ∧ (history.length = 0 → p.percentage = 0)) := by
  constructor
  · intro mu m hm
    obtain ⟨p, hp, rfl⟩ := mem_topModels hm
    constructor
    · apply jsRoundPct_le_100
      have hmem : p.2 ∈ (modelCounts mu).map (·.2) := List.mem_map_of_mem _ hp
      exact mem_le_foldl_add hmem 0
    · intro h0
      simp [h0, jsRoundPct]
  · intro history q hq
    obtain ⟨p, hp, rfl⟩ := mem_topProjects hq
    constructor
    · apply jsRoundPct_le_100
      have := projectCounts_bound history [] 0 (by simp) p hp
      simpa using this
    · intro h0
      simp [h0, jsRoundPct]

/-- A model usage with one positive and one zero output-token count. -/
def c3ModelUsage : List (String × ModelUsage) :=
  [("A", ⟨0, 50, 0, 0, 0, 0, 0⟩), ("B", ⟨0, 0, 0, 0, 0, 0, 0⟩)]

/-- C3 counterexample: model B is ranked with percentage 0 while the
denominator (the sum of all model counts) is 50, not 0 - so a percentage
field being 0 does not imply its denominator is 0, refuting the claimed
equivalence. -/
theorem percentage_zero_with_nonzero_denominator :
    (topModels c3ModelUsage).map (fun m => m.percentage) = [100, 0] ∧
    totalModelCount c3ModelUsage ≠ 0 := by decide

/-- C3 witness: the bound theorem instantiated on the concrete usage map,
with the membership hypothesis discharged by evaluation. -/
theorem percentages_in_range_witness :
    (⟨"A", 50, 100⟩ : ModelStats).percentage ≤ 100 ∧
    (⟨"B", 0, 0⟩ : ModelStats).percentage ≤ 100 := by
  constructor
  · exact (percentages_in_range.1 c3ModelUsage ⟨"A", 50, 100⟩ (by decide)).1
  · exact (percentages_in_range.1 c3ModelUsage ⟨"B", 0, 0⟩ (by decide)).1

/-! ## Claim C4: additive daily-activity merge -/

theorem DayCounts.zero_add (d : DayCounts) : (0 : DayCounts) + d = d := by
  show DayCounts.add ⟨0, 0, 0⟩ d = d
  cases d
  simp [DayCounts.add]

theorem DayCounts.add_zero (d : DayCounts) : d + (0 : DayCounts) = d := by
  show DayCounts.add d ⟨0, 0, 0⟩ = d
  cases d
  simp [DayCounts.add]

theorem DayCounts.add_assoc (a b c : DayCounts) : a + b + c = a + (b + c) := by
  show DayCounts.add (DayCounts.add a b) c = DayCounts.add a (DayCounts.add b c)
  cases a; cases b; cases c
  simp [DayCounts.add]
  omega

/-- The daily-activity records a stats cache contributes (none when the
dataset carries no cache). -/
def localDaysOf : Option ClaudeCodeStats → List DayActivity
  | some c => c.dailyActivity
  | none => []

/-- The daily-activity records one remote dataset contributes. -/
def remoteDaysOf (r : RemoteData) : List DayActivity :=
  match r.statsCache with
  | some c => c.dailyActivity
  | none => []

/-- Whether a source holds a record for the given date. -/
def daysHas (days : List DayActivity) (x : String) : Bool :=
  days.any (fun d => d.date == x)

/-- The summed counts a source contributes for the given date (0 when it
holds no record for it). -/
def daysTotal (days : List DayActivity) (x : String) : DayCounts :=
  (days.filter (fun d => d.date == x)).foldl (fun a d => a + dayToCounts d) 0

/-- Componentwise sum of a list of daily count records. -/
def sumCounts (l : List DayCounts) : DayCounts := l.foldl (· + ·) 0

theorem daysFold_shift (l : List DayActivity) :
    ∀ a : DayCounts, l.foldl (fun acc d => acc + dayToCounts d) a
      = a + l.foldl (fun acc d => acc + dayToCounts d) 0 := by
  induction l with
  | nil => intro a; simp [DayCounts.add_zero]
  | cons d rest ih =>
    intro a
    simp only [List.foldl_cons]
    rw [ih (a + dayToCounts d), ih (0 + dayToCounts d), DayCounts.zero_add,
      DayCounts.add_assoc]

theorem sumCounts_shift (l : List DayCounts) :
    ∀ a : DayCounts, l.foldl (· + ·) a = a + sumCounts l := by
  induction l with
  | nil => intro a; simp [sumCounts, DayCounts.add_zero]
  | cons c rest ih =>
    intro a
    simp only [sumCounts, List.foldl_cons]
    rw [ih (a + c), ih (0 + c), DayCounts.zero_add, DayCounts.add_assoc]

theorem sumCounts_cons (c : DayCounts) (l : List DayCounts) :
    sumCounts (c :: l) = c + sumCounts l := by
  simp only [sumCounts, List.foldl_cons]
  rw [sumCounts_shift l (0 + c), DayCounts.zero_add]
  rfl

theorem daysTotal_nil (x : String) : daysTotal [] x = 0 := rfl

theorem daysTotal_cons_hit (d : DayActivity) (rest : List DayActivity) (x : String)
    (h : (d.date == x) = true) :
    daysTotal (d :: rest) x = dayToCounts d + daysTotal rest x := by
  unfold daysTotal
  simp only [List.filter_cons, h, if_true, List.foldl_cons]
  rw [daysFold_shift _ (0 + dayToCounts d), DayCounts.zero_add]

theorem daysTotal_cons_miss (d : DayActivity) (rest : List DayActivity) (x : String)
    (h : (d.date == x) = false) :
    daysTotal (d :: rest) x = daysTotal rest x := by
  unfold daysTotal
  simp [List.filter_cons, h]

theorem daysTotal_of_not_has (days : List DayActivity) (x : String)
    (h : daysHas days x = false) : daysTotal days x = 0 := by
  unfold daysTotal
  have hf : days.filter (fun d => d.date == x) = [] := by
    rw [List.filter_eq_nil_iff]
    intro d hd
    unfold daysHas at h
    rw [List.any_eq_false] at h
    exact h d hd
  rw [hf]
  rfl

/-- addRemoteDay is Map.set at the day's date of the get-or-zero value
plus the day's counts. -/
theorem addRemoteDay_eq (m : List (String × DayCounts)) (day : DayActivity) :
    addRemoteDay m day = setA m day.date (getDA m day.date + dayToCounts day) := by
  unfold addRemoteDay getDA
  cases h : lookupA m day.date with
  | some e => simp [h]
  | none => simp [h, DayCounts.zero_add]

/-- Folding one source's records with addRemoteDay over a map yields, at
each date, the previous value (zero-defaulted) plus the source's total for
that date, present when either side holds the date. -/
theorem lookupA_foldl_addRemoteDay :
    ∀ (days : List DayActivity) (m : List (String × DayCounts)) (x : String),
    lookupA (days.foldl addRemoteDay m) x =
      if daysHas days x || (lookupA m x).isSome
      then some (getDA m x + daysTotal days x)
      else none := by
  intro days
  induction days with
  | nil =>
    intro m x
    simp only [List.foldl_nil, daysHas, List.any_nil, Bool.false_or, daysTotal_nil,
      DayCounts.add_zero]
    cases h : lookupA m x with
    | some v => simp [getDA, h]
    | none => simp [h]
  | cons d rest ih =>
    intro m x
    simp only [List.foldl_cons]
    rw [ih (addRemoteDay m d) x, addRemoteDay_eq, lookupA_setA, getDA_setA]
    by_cases hx : x = d.date
    · have hb : (d.date == x) = true := by simp [hx]
      simp only [hx, if_pos rfl]
      have hc1 : daysHas (d :: rest) d.date = true := by
        simp [daysHas, List.any_cons]
      rw [hc1]
      simp only [Option.isSome_some, Bool.or_true, Bool.true_or, if_true]
      rw [daysTotal_cons_hit d rest d.date (by simp), DayCounts.add_assoc]
    · have hb : (d.date == x) = false := by
        simp only [beq_eq_false_iff_ne, ne_eq]
        exact fun h => hx h.symm
      simp only [hx, if_false]
      have hc1 : daysHas (d :: rest) x = daysHas rest x := by
        simp [daysHas, List.any_cons, hb]
      rw [hc1, daysTotal_cons_miss d rest x hb]

/-- Folding one source's records with insertLocalDay (an overwrite): with
no duplicate dates in the source, the result at a date is the source's
record for it when one exists, else the underlying map's value. -/
theorem lookupA_foldl_insertLocalDay :
    ∀ (days : List DayActivity) (m : List (String × DayCounts)) (x : String),
    (days.map (fun d => d.date)).Nodup →
    lookupA (days.foldl insertLocalDay m) x =
      (match days.find? (fun d => d.date == x) with
        | some d => some (dayToCounts d)
        | none => lookupA m x) := by
  intro days
  induction days with
  | nil =>
    intro m x _
    simp [List.find?]
  | cons d rest ih =>
    intro m x hnd
    rw [List.map_cons, List.nodup_cons] at hnd
    obtain ⟨hd1, hd2⟩ := hnd
    simp only [List.foldl_cons, List.find?]
    cases hb : (d.date == x) with
    | true =>
      have hx : d.date = x := by simpa using hb
      have hrest : rest.find? (fun d2 => d2.date == x) = none := by
        rw [List.find?_eq_none]
        intro d2 hd2m
        have hmem : d2.date ∈ rest.map (fun d3 => d3.date) := List.mem_map_of_mem _ hd2m
        have hne : d2.date ≠ d.date := fun h => hd1 (h ▸ hmem)
        rw [← hx]
        simpa using hne
      rw [ih _ x hd2, hrest]
      unfold insertLocalDay
      rw [lookupA_setA]
      simp [hx]
    | false =>
      rw [ih _ x hd2]
      cases hf : rest.find? (fun d2 => d2.date == x) with
      | some d2 => simp
      | none =>
        simp only
        unfold insertLocalDay
        rw [lookupA_setA]
        have hx : ¬ x = d.date := by
          intro h
          rw [h] at hb
          simp at hb
        simp [hx]

/-- Under distinct dates, the found record carries the whole per-date
total of its source. -/
theorem daysTotal_eq_of_find? :
    ∀ (days : List DayActivity) (x : String) (d : DayActivity),
    (days.map (fun d2 => d2.date)).Nodup →
    days.find? (fun d2 => d2.date == x) = some d →
    daysTotal days x = dayToCounts d := by
  intro days
  induction days with
  | nil => intro x d _ h; simp [List.find?] at h
  | cons d0 rest ih =>
    intro x d hnd hf
    rw [List.map_cons, List.nodup_cons] at hnd
    obtain ⟨hd1, hd2⟩ := hnd
    simp only [List.find?] at hf
    cases hb : (d0.date == x) with
    | true =>
      rw [hb] at hf
      have hdd : d0 = d := by simpa using hf
      subst hdd
      have hx : d0.date = x := by simpa using hb
      rw [daysTotal_cons_hit d0 rest x hb]
      have hrest : daysTotal rest x = 0 := by
        apply daysTotal_of_not_has
        unfold daysHas
        rw [List.any_eq_false]
        intro d2 hd2m
        have hmem : d2.date ∈ rest.map (fun d3 => d3.date) := List.mem_map_of_mem _ hd2m
        have hne : d2.date ≠ d0.date := fun h => hd1 (h ▸ hmem)
        rw [← hx]
        simpa using hne
      rw [hrest, DayCounts.add_zero]
    | false =>
      rw [hb] at hf
      rw [daysTotal_cons_miss d0 rest x hb]
      exact ih x d hd2 hf

/-- daysHas coincides with a successful find?. -/
theorem daysHas_iff_find? (days : List DayActivity) (x : String) :
    daysHas days x = (days.find? (fun d => d.date == x)).isSome := by
  induction days with
  | nil => rfl
  | cons d rest ih =>
    simp only [daysHas, List.any_cons, List.find?]
    cases hb : (d.date == x) with
    | true => simp
    | false => simpa [daysHas] using ih

/-- The local phase from the empty map, in per-date total form. -/
theorem lookupA_local_phase (days : List DayActivity) (x : String)
    (hnd : (days.map (fun d => d.date)).Nodup) :
    lookupA (days.foldl insertLocalDay []) x =
      if daysHas days x then some (daysTotal days x) else none := by
  rw [lookupA_foldl_insertLocalDay days [] x hnd, daysHas_iff_find?]
  cases hf : days.find? (fun d => d.date == x) with
  | some d =>
    simp only [Option.isSome_some, if_true]
    rw [daysTotal_eq_of_find? days x d hnd hf]
  | none => simp [lookupA]

/-- Folding every remote source additively over a map: at each date the
result is the map's value (zero-defaulted) plus the sum of every remote's
total for that date. -/
theorem lookupA_foldl_remotes :
    ∀ (rs : List RemoteData) (m : List (String × DayCounts)) (x : String),
    lookupA (rs.foldl (fun m2 r => (remoteDaysOf r).foldl addRemoteDay m2) m) x =
      if rs.any (fun r => daysHas (remoteDaysOf r) x) || (lookupA m x).isSome
      then some (getDA m x + sumCounts (rs.map (fun r => daysTotal (remoteDaysOf r) x)))
      else none := by
  intro rs
  induction rs with
  | nil =>
    intro m x
    simp only [List.foldl_nil, List.any_nil, Bool.false_or, List.map_nil]
    cases h : lookupA m x with
    | some v => simp [getDA, h, sumCounts, DayCounts.add_zero]
    | none => simp [h]
  | cons r rest ih =>
    intro m x
    simp only [List.foldl_cons]
    rw [ih ((remoteDaysOf r).foldl addRemoteDay m) x]
    have hinner := lookupA_foldl_addRemoteDay (remoteDaysOf r) m x
    have hsome : ((lookupA ((remoteDaysOf r).foldl addRemoteDay m) x).isSome)
        = (daysHas (remoteDaysOf r) x || (lookupA m x).isSome) := by
      rw [hinner]
      cases hc : (daysHas (remoteDaysOf r) x || (lookupA m x).isSome) <;> simp
    have hget : getDA ((remoteDaysOf r).foldl addRemoteDay m) x
        = getDA m x + daysTotal (remoteDaysOf r) x := by
      unfold getDA
      rw [hinner]
      cases hc : (daysHas (remoteDaysOf r) x || (lookupA m x).isSome) with
      | true => rfl
      | false =>
        have h1 : daysHas (remoteDaysOf r) x = false := by
          cases hdh : daysHas (remoteDaysOf r) x
          · rfl
          · rw [hdh] at hc; simp at hc
        have h2 : lookupA m x = none := by
          cases hl : lookupA m x
          · rfl
          · rw [hl] at hc; simp at hc
        rw [daysTotal_of_not_has _ _ h1, h2]
        simp [DayCounts.add_zero]
    rw [hsome, hget, List.any_cons, List.map_cons, sumCounts_cons]
    have hcond : (rest.any (fun r2 => daysHas (remoteDaysOf r2) x)
          || (daysHas (remoteDaysOf r) x || (lookupA m x).isSome))
        = ((daysHas (remoteDaysOf r) x || rest.any (fun r2 => daysHas (remoteDaysOf r2) x))
          || (lookupA m x).isSome) := by
      cases rest.any (fun r2 => daysHas (remoteDaysOf r2) x) <;>
        cases daysHas (remoteDaysOf r) x <;>
        cases (lookupA m x).isSome <;> rfl
    rw [hcond, DayCounts.add_assoc]

/-- The merged daily-activity map of mergeData, at each date: present when
any contributing source holds the date, with the componentwise sum of every
contributing source's counts (local overwrite phase assuming the local
cache has one record per date, remote phases additive). -/
theorem lookupA_mergeDailyMap (lc : Option ClaudeCodeStats) (rs : List RemoteData) (x : String)
    (hnd : ∀ c ∈ lc, (c.dailyActivity.map (fun d => d.date)).Nodup) :
    lookupA (mergeDailyMap lc rs) x =
      if daysHas (localDaysOf lc) x || rs.any (fun r => daysHas (remoteDaysOf r) x)
      then some (daysTotal (localDaysOf lc) x
          + sumCounts (rs.map (fun r => daysTotal (remoteDaysOf r) x)))
      else none := by
  have hndl : ((localDaysOf lc).map (fun d => d.date)).Nodup := by
    cases lc with
    | some c => exact hnd c rfl
    | none => simp [localDaysOf]
  have hfun : (fun (m2 : List (String × DayCounts)) (r : RemoteData) =>
      match r.statsCache with
      | some c => c.dailyActivity.foldl addRemoteDay m2
      | none => m2)
      = (fun m2 r => (remoteDaysOf r).foldl addRemoteDay m2) := by
    funext m2 r
    cases hr : r.statsCache with
    | some c => simp [remoteDaysOf, hr]
    | none => simp [remoteDaysOf, hr]
  have hm0 : mergeDailyMap lc rs =
      rs.foldl (fun m2 r => (remoteDaysOf r).foldl addRemoteDay m2)
        ((localDaysOf lc).foldl insertLocalDay []) := by
    unfold mergeDailyMap
    cases lc with
    | some c => rw [hfun]; rfl
    | none => rw [hfun]; rfl
  rw [hm0, lookupA_foldl_remotes]
  have hl := lookupA_local_phase (localDaysOf lc) x hndl
  have hsome : (lookupA ((localDaysOf lc).foldl insertLocalDay []) x).isSome
      = daysHas (localDaysOf lc) x := by
    rw [hl]
    cases daysHas (localDaysOf lc) x <;> simp
  have hget : getDA ((localDaysOf lc).foldl insertLocalDay []) x
      = daysTotal (localDaysOf lc) x := by
    unfold getDA
    rw [hl]
    cases hdh : daysHas (localDaysOf lc) x with
    | true => rfl
    | false =>
      rw [daysTotal_of_not_has _ _ hdh]
      rfl
  rw [hsome, hget, Bool.or_comm]

/-- Searching the rebuilt record list by date is the map lookup. -/
theorem find?_countsToDay (m : List (String × DayCounts)) (x : String) :
    (m.map (fun p => countsToDay p.1 p.2)).find? (fun d => d.date == x)
      = (lookupA m x).map (fun v => countsToDay x v) := by
  induction m with
  | nil => simp [lookupA]
  | cons p rest ih =>
    obtain ⟨k0, v0⟩ := p
    simp only [List.map_cons, List.find?, lookupA]
    cases hb : (k0 == x) with
    | true =>
      have hx : k0 = x := by simpa using hb
      subst hx
      simp [countsToDay]
    | false =>
      have : ((countsToDay k0 v0).date == x) = false := hb
      rw [this]
      simpa using ih

/-- C4: for every local dataset and non-empty remote list (with the local
cache holding at most one record per date), the merged cache's
daily-activity record at any date carried by at least one contributing
source holds exactly the componentwise sum of all contributing sources'
counts for that date (so a date shared by several sources is summed, and a
date from a single source is inserted unchanged); a date carried by no
source is absent. -/
theorem mergeData_dailyActivity_additive
    (loc : CollectedData) (remotes : List RemoteData) (todayKey nowISO : String) (x : String)
    (hr : remotes ≠ [])
    (hnd : ∀ c ∈ loc.statsCache, (c.dailyActivity.map (fun d => d.date)).Nodup) :
    ∀ mc, (mergeData loc remotes todayKey nowISO).statsCache = some mc →
      mc.dailyActivity.find? (fun d => d.date == x) =
        if daysHas (localDaysOf loc.statsCache) x
            || remotes.any (fun r => daysHas (remoteDaysOf r) x)
        then some (countsToDay x (daysTotal (localDaysOf loc.statsCache) x
            + sumCounts (remotes.map (fun r => daysTotal (remoteDaysOf r) x))))
        else none := by
  intro mc hmc
  have hne : remotes.isEmpty = false := by
    cases remotes with
    | nil => exact absurd rfl hr
    | cons r rest => rfl
  unfold mergeData at hmc
  rw [hne] at hmc
  simp only [Bool.false_eq_true, if_false, Option.some.injEq] at hmc
  subst hmc
  unfold buildMergedCache
  simp only
  rw [find?_countsToDay, lookupA_mergeDailyMap loc.statsCache remotes x hnd]
  cases daysHas (localDaysOf loc.statsCache) x
      || remotes.any (fun r => daysHas (remoteDaysOf r) x) <;> simp

/-- A local dataset whose cache holds two dates. -/
def c4Local : CollectedData :=
  ⟨some ⟨1, "2025-04-01", [⟨"2025-03-01", 1, 2, 3⟩, ⟨"2025-03-05", 4, 5, 6⟩], [], [],
    2, 5, ⟨"", 0, 0, ""⟩, "2025-03-01", []⟩, [], []⟩

/-- A remote dataset sharing the first date. -/
def c4Remote : RemoteData :=
  ⟨"host1", some ⟨1, "2025-04-02", [⟨"2025-03-01", 10, 20, 30⟩], [], [],
    1, 10, ⟨"", 0, 0, ""⟩, "2025-03-01", []⟩, [], [], none⟩

/-- C4 witness: merging the concrete local and remote datasets, the shared
date 2025-03-01 carries the summed counts 11, 22, 33 in the merged cache,
as the theorem instantiates. -/
theorem mergeData_dailyActivity_additive_witness :
    ((mergeData c4Local [c4Remote] "2025-12-31" "2025-12-31T00:00:00.000Z").statsCache.map
      (fun mc => mc.dailyActivity.find? (fun d => d.date == "2025-03-01")))
      = some (some ⟨"2025-03-01", 11, 22, 33⟩) := by
  have h := mergeData_dailyActivity_additive c4Local [c4Remote] "2025-12-31"
    "2025-12-31T00:00:00.000Z" "2025-03-01" (by simp)
    (by
      intro c hc
      have hcc : c4Local.statsCache = some c := hc
      have hc2 := Option.some.inj hcc
      rw [← hc2]
      decide)
    (buildMergedCache c4Local [c4Remote] "2025-12-31" "2025-12-31T00:00:00.000Z") rfl
  rw [show (mergeData c4Local [c4Remote] "2025-12-31" "2025-12-31T00:00:00.000Z").statsCache
    = some (buildMergedCache c4Local [c4Remote] "2025-12-31" "2025-12-31T00:00:00.000Z")
    from rfl]
  simp only [Option.map_some']
  rw [h]
  decide

/-! ## Claim C6: streak detection on a 3-day run and a 2-day run -/

/-- Sorting a list that is already strictly ascending leaves it unchanged
(the JavaScript sort returns the ascending reordering, which is the list
itself here). -/
theorem sortKeys_of_chain :
    ∀ l : List String, l.Chain' (fun a b => strLt a b = true) → sortKeys l = l := by
  intro l
  induction l with
  | nil => intro h; rfl
  | cons a rest ih =>
    intro h
    have hrest : rest.Chain' (fun a b => strLt a b = true) := h.tail
    unfold sortKeys
    simp only [List.foldr_cons]
    have hs : rest.foldr insertKeyAsc [] = rest := ih hrest
    rw [hs]
    cases rest with
    | nil => rfl
    | cons b rest2 =>
      have hab : strLt a b = true := (List.chain'_cons.mp h).1
      unfold insertKeyAsc
      rw [strLt_le hab]
      simp

/-- C6: for an active-date map of five dates D, D+1, D+2, D+5, D+6 (all in
the requested year, given by their canonical keys in ascending string
order), the streak computation returns maxStreak = 3 and the streak-day
set exactly {D, D+1, D+2}, for any counts and any wall-clock date: the
sorted year-filtered dates are scanned pairwise, a gap of exactly one
calendar day extends the running streak, any other gap resets it to 1, and
the maximum-length run's dates are materialized. -/
theorem calculateStreaks_consecutive_run
    (k0 k1 k2 k3 k4 : String) (d0 d1 d2 d3 d4 : CalDate)
    (c0 c1 c2 c3 c4 : Int) (year : Nat) (today : CalDate)
    (hp0 : parseDateKey k0 = some d0) (hp1 : parseDateKey k1 = some d1)
    (hp2 : parseDateKey k2 = some d2) (hp3 : parseDateKey k3 = some d3)
    (hp4 : parseDateKey k4 = some d4)
    (hy0 : strStartsWith k0 (toString year) = true)
    (hy1 : strStartsWith k1 (toString year) = true)
    (hy2 : strStartsWith k2 (toString year) = true)
    (hy3 : strStartsWith k3 (toString year) = true)
    (hy4 : strStartsWith k4 (toString year) = true)
    (hlt01 : strLt k0 k1 = true) (hlt12 : strLt k1 k2 = true)
    (hlt23 : strLt k2 k3 = true) (hlt34 : strLt k3 k4 = true)
    (hg1 : d1.dayNumber = d0.dayNumber + 1)
    (hg2 : d2.dayNumber = d1.dayNumber + 1)
    (hg3 : d3.dayNumber = d2.dayNumber + 3)
    (hg4 : d4.dayNumber = d3.dayNumber + 1) :
    (calculateStreaks [(k0, c0), (k1, c1), (k2, c2), (k3, c3), (k4, c4)]
      year today).maxStreak = 3 ∧
    (calculateStreaks [(k0, c0), (k1, c1), (k2, c2), (k3, c3), (k4, c4)]
      year today).maxStreakDays = [k0, k1, k2] := by
  have hdiff1 : diffDays k0 k1 = some 1 := by
    have hv : d1.dayNumber - d0.dayNumber = 1 := by omega
    unfold diffDays
    rw [hp0, hp1]
    simp [hv]
  have hdiff2 : diffDays k1 k2 = some 1 := by
    have hv : d2.dayNumber - d1.dayNumber = 1 := by omega
    unfold diffDays
    rw [hp1, hp2]
    simp [hv]
  have hdiff3 : diffDays k2 k3 = some 3 := by
    have hv : d3.dayNumber - d2.dayNumber = 3 := by omega
    unfold diffDays
    rw [hp2, hp3]
    simp [hv]
  have hdiff4 : diffDays k3 k4 = some 1 := by
    have hv : d4.dayNumber - d3.dayNumber = 1 := by omega
    unfold diffDays
    rw [hp3, hp4]
    simp [hv]
  have hactive : (([(k0, c0), (k1, c1), (k2, c2), (k3, c3), (k4, c4)].map
      (fun p => p.1)).filter (fun k => strStartsWith k (toString year)))
      = [k0, k1, k2, k3, k4] := by
    simp [hy0, hy1, hy2, hy3, hy4]
  have hchain : ([k0, k1, k2, k3, k4] : List String).Chain'
      (fun a b => strLt a b = true) := by
    refine List.chain'_cons.mpr ⟨hlt01, ?_⟩
    refine List.chain'_cons.mpr ⟨hlt12, ?_⟩
    refine List.chain'_cons.mpr ⟨hlt23, ?_⟩
    refine List.chain'_cons.mpr ⟨hlt34, ?_⟩
    simp
  have hsort : sortKeys [k0, k1, k2, k3, k4] = [k0, k1, k2, k3, k4] :=
    sortKeys_of_chain _ hchain
  have hdiffs : adjacentDiffs [k0, k1, k2, k3, k4] = [some 1, some 1, some 3, some 1] := by
    unfold adjacentDiffs
    simp only [List.drop_succ_cons, List.drop_zero, List.zip_cons_cons,
      List.zip_nil_right, List.map_cons, List.map_nil]
    rw [hdiff1, hdiff2, hdiff3, hdiff4]
  have hscan : streakScan [k0, k1, k2, k3, k4] = ⟨3, 2, 3, 0, 2⟩ := by
    unfold streakScan
    rw [hdiffs]
    decide
  unfold calculateStreaks
  simp only [hactive, hsort, hscan, List.isEmpty_cons, Bool.false_eq_true, if_false]
  constructor
  · trivial
  · rfl

/-- C6 witness: the streak theorem instantiated at D = 2024-03-10 with the
active dates 2024-03-10/11/12/15/16, every hypothesis discharged by
evaluation. -/
theorem calculateStreaks_consecutive_run_witness :
    (calculateStreaks [("2024-03-10", 1), ("2024-03-11", 1), ("2024-03-12", 1),
      ("2024-03-15", 1), ("2024-03-16", 1)] 2024 ⟨2025, 1, 1⟩).maxStreak = 3 ∧
    (calculateStreaks [("2024-03-10", 1), ("2024-03-11", 1), ("2024-03-12", 1),
      ("2024-03-15", 1), ("2024-03-16", 1)] 2024 ⟨2025, 1, 1⟩).maxStreakDays
      = ["2024-03-10", "2024-03-11", "2024-03-12"] :=
  calculateStreaks_consecutive_run
    "2024-03-10" "2024-03-11" "2024-03-12" "2024-03-15" "2024-03-16"
    ⟨2024, 3, 10⟩ ⟨2024, 3, 11⟩ ⟨2024, 3, 12⟩ ⟨2024, 3, 15⟩ ⟨2024, 3, 16⟩
    1 1 1 1 1 2024 ⟨2025, 1, 1⟩
    (by decide) (by decide) (by decide) (by decide) (by decide)
    (by decide) (by decide) (by decide) (by decide) (by decide)
    (by decide) (by decide) (by decide) (by decide)
    (by decide) (by decide) (by decide) (by decide)

/-! ## Claim C2: every discoverable storage root is read and merged -/

/-- The cache under the ~/.claude root of the two-layout configuration. -/
def c2CacheA : ClaudeCodeStats :=
  ⟨1, "2025-04-01", [⟨"2025-03-01", 1, 2, 3⟩], [],
    [("claude-opus-4-20250514", ⟨10, 20, 30, 40, 0, 0, 0⟩)],
    2, 5, ⟨"sa", 0, 0, ""⟩, "2025-02-01", []⟩

/-- The cache under the ~/.config/claude root. -/
def c2CacheB : ClaudeCodeStats :=
  ⟨1, "2025-04-02", [⟨"2025-03-01", 10, 20, 30⟩, ⟨"2025-03-02", 7, 8, 9⟩], [],
    [("claude-opus-4-20250514", ⟨1, 2, 3, 4, 0, 0, 0⟩)],
    4, 11, ⟨"sb", 0, 0, ""⟩, "2025-01-15", []⟩

/-- A filesystem holding a cache under each of the two on-disk layouts. -/
def c2Reader : String → Option ClaudeCodeStats :=
  fun p =>
    if p = "/home/user/.claude/stats-cache.json" then some c2CacheA
    else if p = "/home/user/.config/claude/stats-cache.json" then some c2CacheB
    else none

/-- C2: the collector tries the fixed preference-ordered candidate roots,
silently skips a root that cannot be listed, and additively merges the
cache files of every discoverable valid root.  First conjunct: the
pairwise cache merge sums the per-date daily counts across the two caches
(a date held by only one cache is inserted unchanged, one held by both is
summed componentwise) and sums the session and message totals, for every
pair of caches (the accumulated cache holding one record per date).
Second conjunct: on a configuration with both on-disk layouts present,
data from both roots is read and merged - the shared date carries
1+10, 2+20, 3+30, the date of the second root alone is unchanged, and the
session totals sum to 6.  Third conjunct: with the ~/.claude root not
listable, that root is silently skipped and the config-root cache alone is
returned. -/
theorem collectStatsCache_merges_all_roots :
    (∀ (a b : ClaudeCodeStats) (x : String),
      (a.dailyActivity.map (fun d => d.date)).Nodup →
      (mergeCaches a b).dailyActivity.find? (fun d => d.date == x) =
        (if daysHas a.dailyActivity x || daysHas b.dailyActivity x
          then some (countsToDay x (daysTotal a.dailyActivity x + daysTotal b.dailyActivity x))
          else none) ∧
      (mergeCaches a b).totalSessions = a.totalSessions + b.totalSessions ∧
      (mergeCaches a b).totalMessages = a.totalMessages + b.totalMessages) ∧
    ((collectStatsCache "/home/user" (fun _ => true) c2Reader).map
      (fun mc => (mc.dailyActivity.find? (fun d => d.date == "2025-03-01"),
        mc.dailyActivity.find? (fun d => d.date == "2025-03-02"),
        mc.totalSessions))
      = some (some ⟨"2025-03-01", 11, 22, 33⟩, some ⟨"2025-03-02", 7, 8, 9⟩, 6)) ∧
    (collectStatsCache "/home/user"
      (fun p => p == joinPath (joinPath "/home/user" ".config") "claude") c2Reader
      = some c2CacheB) := by
  refine ⟨?_, by decide, by decide⟩
  intro a b x hnd
  refine ⟨?_, rfl, rfl⟩
  unfold mergeCaches
  simp only
  rw [find?_countsToDay, lookupA_foldl_addRemoteDay]
  have hl := lookupA_local_phase a.dailyActivity x hnd
  have hsome : (lookupA (a.dailyActivity.foldl insertLocalDay []) x).isSome
      = daysHas a.dailyActivity x := by
    rw [hl]
    cases daysHas a.dailyActivity x <;> simp
  have hget : getDA (a.dailyActivity.foldl insertLocalDay []) x
      = daysTotal a.dailyActivity x := by
    unfold getDA
    rw [hl]
    cases hdh : daysHas a.dailyActivity x with
    | true => rfl
    | false =>
      rw [daysTotal_of_not_has _ _ hdh]
      rfl
  rw [hsome, hget, Bool.or_comm]
  cases daysHas a.dailyActivity x || daysHas b.dailyActivity x <;> simp

/-- C2 witness: the pairwise merge conjunct instantiated on the two
concrete caches, every hypothesis discharged by evaluation. -/
theorem collectStatsCache_merges_all_roots_witness :
    (mergeCaches c2CacheA c2CacheB).dailyActivity.find?
      (fun d => d.date == "2025-03-01") = some ⟨"2025-03-01", 11, 22, 33⟩ ∧
    (mergeCaches c2CacheA c2CacheB).totalSessions = 6 := by
  have h := collectStatsCache_merges_all_roots.1 c2CacheA c2CacheB "2025-03-01" (by decide)
  refine ⟨?_, ?_⟩
  · rw [h.1]
    decide
  · rw [h.2.1]
    decide
